import Mathlib

/-!
Verification of the create-book-generator orchestration core and import/export
layer, shallowly embedded from the TypeScript source.

The AI generation pipeline (`handleGenerate` in the AIGenerator component) is
modelled as a pure function over an oracle `GenService` supplying the outcomes
of the three external calls (`generateStoryText`, `generateImagePrompt`,
`generateImage`).  Fallible calls return `Except String α`, mirroring JS
promise rejection.  The function returns both the run outcome (an `Except`:
`.ok` corresponds to invoking the `onGenerate` completion callback, `.error`
to setting the error message) and the ordered list of progress snapshots
delivered via `setProgress`.

The import/export layer (`bookExport.ts`) operates on parsed JSON documents,
modelled by the `Json` inductive; JS truthiness and `typeof` checks are
translated field by field.
-/

namespace BookGen

/-- One page of a book (`StoryPage` in `types`): id, optional image data URL,
image scale, caption text. -/
structure StoryPage where
  id : String
  image : Option String
  imageScale : Int
  text : String

/-- Cover of a book (`CoverData` in `types`). -/
structure CoverData where
  image : Option String
  imageScale : Int

/-- A progress snapshot as passed to `setProgress`. -/
structure Progress where
  current : Nat
  total : Nat
  message : String

/-- The persisted book record (`Book` in `types`). -/
structure Book where
  id : String
  title : String
  coverData : CoverData
  pages : List StoryPage
  createdAt : Int
  updatedAt : Int

/-- Oracle for the three external generative calls made during one run, with
the API key, theme, total page count and model identifiers fixed for the run.
`story` receives the page number and the accumulated previous page texts
(`generateStoryText`), `prompt` receives the page's story text and the base
image descriptions (`generateImagePrompt`), `image` receives the image prompt
(`generateImage`). -/
structure GenService where
  story : Nat → List String → Except String String
  prompt : String → List String → Except String String
  image : String → Except String String

/-- `analyzeBaseImages` analyses each base image inside a per-image
`try`/`catch`, pushing the description on success and skipping the image on
failure; it is modelled on the list of per-image analysis outcomes. -/
def analyzeBaseImages (results : List (Except String String)) : List String :=
  results.filterMap fun r =>
    match r with
    | .ok s => some s
    | .error _ => none

/-- The per-page `try { imageData = await generateImage(...) } catch { ... }`:
a failed image generation is swallowed and the page keeps `image = null`. -/
def imageOrNull (r : Except String String) : Option String :=
  match r with
  | .ok d => some d
  | .error _ => none

/-- The page loop of `handleGenerate` (`for (let i = 1; i <= pageCount; i++)`),
processing `cnt` pages starting at page number `i` with `texts` the story
texts accumulated so far.  Per page it emits the story progress snapshot,
generates the story text (failure aborts the run), emits the illustration
progress snapshot, generates the image prompt (failure aborts the run), and
attempts image generation (failure is swallowed).  Returns the generated
pages (or the aborting error) together with the emitted progress snapshots. -/
def runPages (svc : GenService) (descs : List String) (nowStr : String)
    (pageCount : Nat) :
    Nat → Nat → List String → Except String (List StoryPage) × List Progress
  | _, 0, _ => (Except.ok [], [])
  | i, cnt + 1, texts =>
    let p1 : Progress :=
      ⟨i, pageCount + 2,
        "ページ " ++ toString i ++ "/" ++ toString pageCount ++ " のストーリーを生成中..."⟩
    match svc.story i texts with
    | .error e => (Except.error e, [p1])
    | .ok t =>
      let p2 : Progress :=
        ⟨i, pageCount + 2,
          "ページ " ++ toString i ++ "/" ++ toString pageCount ++ " のイラストを生成中..."⟩
      match svc.prompt t descs with
      | .error e => (Except.error e, [p1, p2])
      | .ok pr =>
        let page : StoryPage :=
          ⟨nowStr ++ toString i, imageOrNull (svc.image pr), 1, t⟩
        let rest := runPages svc descs nowStr pageCount (i + 1) cnt (texts ++ [t])
        (rest.1.map fun l => page :: l, p1 :: p2 :: rest.2)

/-- The body of `handleGenerate` in the AIGenerator component: emits the
initial progress snapshot, analyses the base images (when any were uploaded),
runs the page loop, generates the cover inside a `try`/`catch` (so cover
prompt or cover image failure leaves the cover image `null`), emits the final
snapshot and produces the `(title, coverData, pages)` triple handed to the
`onGenerate` callback; any error escaping the page loop is caught by the outer
`catch` and surfaced as the error message instead. -/
def handleGenerate (svc : GenService) (baseImages : List (Except String String))
    (nowStr theme : String) (pageCount : Nat) :
    Except String (String × CoverData × List StoryPage) × List Progress :=
  let p0 : Progress := ⟨0, pageCount + 2, "準備中..."⟩
  let analysisProgs : List Progress :=
    if baseImages.isEmpty then []
    else [⟨0, pageCount + 2, "参考画像を分析中..."⟩]
  let descs := analyzeBaseImages baseImages
  let r := runPages svc descs nowStr pageCount 1 pageCount []
  match r.1 with
  | .error e => (Except.error e, p0 :: (analysisProgs ++ r.2))
  | .ok pages =>
    let pCover : Progress := ⟨pageCount + 1, pageCount + 2, "表紙を生成中..."⟩
    let coverImage : Option String :=
      match svc.prompt ("表紙: " ++ theme ++ "の物語") descs with
      | .error _ => none
      | .ok cp => imageOrNull (svc.image cp)
    let pDone : Progress := ⟨pageCount + 2, pageCount + 2, "完了!"⟩
    (Except.ok (theme, ⟨coverImage, 1⟩, pages),
      p0 :: (analysisProgs ++ r.2 ++ [pCover, pDone]))

/-!
## The Gemini client's `generateImage`

`generateImage` inspects the response's `candidates[0]?.content?.parts`,
returns a `data:` URL built from the first part carrying `inlineData`, and
throws `画像データが見つかりません` when no such part exists.  It never
returns `null`.
-/

/-- `part.inlineData`: mime type (possibly absent) and base64 payload. -/
structure InlineData where
  mimeType : Option String
  data : String

/-- One element of `candidates[0].content.parts`. -/
structure GenPart where
  inlineData : Option InlineData

/-- One response candidate; `parts` models `content?.parts` (absent when
either `content` or `parts` is missing). -/
structure Candidate where
  parts : Option (List GenPart)

/-- The response of `ai.models.generateContent`; an absent `candidates` field
is modelled as the empty list (both make the guard fail). -/
structure GenResponse where
  candidates : List Candidate

/-- The `for (const part of ...parts)` loop of `generateImage`: the first part
with `inlineData` yields the data URL, the mime type defaulting to
`image/png` when absent or empty (JS `||`). -/
def findInlineImage : List GenPart → Except String String
  | [] => Except.error "画像データが見つかりません"
  | p :: rest =>
    match p.inlineData with
    | some d =>
      let mime := match d.mimeType with
        | some s => if s = "" then "image/png" else s
        | none => "image/png"
      Except.ok ("data:" ++ mime ++ ";base64," ++ d.data)
    | none => findInlineImage rest

/-- `generateImage` in `geminiService`, applied to an already-received
response: extract the first inline image, or throw. -/
def generateImage (resp : GenResponse) : Except String String :=
  match resp.candidates.head? with
  | some c =>
    match c.parts with
    | some parts => findInlineImage parts
    | none => Except.error "画像データが見つかりません"
  | none => Except.error "画像データが見つかりません"

/-!
## Parsed JSON documents and the import/export layer (`bookExport.ts`)
-/

/-- A parsed JSON value (`JSON.parse` output).  Numbers are modelled as `Int`:
the only numeric fields are millisecond timestamps and the model only ever
tests `typeof x === 'number'` on them. -/
inductive Json where
  | null
  | bool (b : Bool)
  | num (n : Int)
  | str (s : String)
  | arr (elems : List Json)
  | obj (fields : List (String × Json))

/-- Property lookup on an object: first binding wins (our objects never carry
duplicate keys). `none` models JS `undefined`. -/
def lookupField : List (String × Json) → String → Option Json
  | [], _ => none
  | (k, v) :: rest, key => if k = key then some v else lookupField rest key

/-- `data.field` access: `none` when the value is not an object or the field
is absent. -/
def jget (j : Json) (key : String) : Option Json :=
  match j with
  | .obj fields => lookupField fields key
  | _ => none

/-- JS truthiness of a parsed JSON value (`NaN` cannot arise from our
documents; objects and arrays are always truthy). -/
def truthy : Json → Bool
  | .null => false
  | .bool b => b
  | .num n => n != 0
  | .str s => s != ""
  | .arr _ => true
  | .obj _ => true

/-- Truthiness of `data.field` (an absent field is `undefined`, falsy). -/
def truthyField (j : Json) (key : String) : Bool :=
  match jget j key with
  | some v => truthy v
  | none => false

/-- `validateBook`: the candidate must be a (non-null) object with string
`id`, string `title`, a defined `coverData`, an array `pages`, numeric
`createdAt` and numeric `updatedAt`. -/
def validateBook (j : Json) : Bool :=
  match j with
  | .obj _ =>
    (match jget j "id" with | some (.str _) => true | _ => false) &&
    (match jget j "title" with | some (.str _) => true | _ => false) &&
    (jget j "coverData").isSome &&
    (match jget j "pages" with | some (.arr _) => true | _ => false) &&
    (match jget j "createdAt" with | some (.num _) => true | _ => false) &&
    (match jget j "updatedAt" with | some (.num _) => true | _ => false)
  | _ => false

/-- `book.id` of a JSON-level book (validated books always have a string
`id`). -/
def bookId (j : Json) : String :=
  match jget j "id" with
  | some (.str s) => s
  | _ => ""

/-- Replace the first binding of `key` in place, appending when absent —
the semantics of the JS object spread `{...book, id: v}`. -/
def replaceField : List (String × Json) → String → Json → List (String × Json)
  | [], key, v => [(key, v)]
  | (k, v0) :: rest, key, v =>
    if k = key then (key, v) :: rest else (k, v0) :: replaceField rest key v

/-- `{...book, field: v}` on an object (non-objects are left unchanged; they
never reach this operation). -/
def setField (j : Json) (key : String) (v : Json) : Json :=
  match j with
  | .obj fields => .obj (replaceField fields key v)
  | other => other

/-- Serialize a cover, as `JSON.stringify` renders it. -/
def encodeCover (c : CoverData) : Json :=
  .obj [("image", match c.image with | some s => .str s | none => .null),
        ("imageScale", .num c.imageScale)]

/-- Serialize a page. -/
def encodePage (p : StoryPage) : Json :=
  .obj [("id", .str p.id),
        ("image", match p.image with | some s => .str s | none => .null),
        ("imageScale", .num p.imageScale),
        ("text", .str p.text)]

/-- Serialize a book. -/
def encodeBook (b : Book) : Json :=
  .obj [("id", .str b.id),
        ("title", .str b.title),
        ("coverData", encodeCover b.coverData),
        ("pages", .arr (b.pages.map encodePage)),
        ("createdAt", .num b.createdAt),
        ("updatedAt", .num b.updatedAt)]

/-- `downloadSingleBook`: the single-book export document
`{version: '1.0', exportedAt, book}`. -/
def downloadSingleBook (b : Book) (exportedAt : Int) : Json :=
  .obj [("version", .str "1.0"),
        ("exportedAt", .num exportedAt),
        ("book", encodeBook b)]

/-- `downloadBookshelf`: the bookshelf export document
`{version: '1.0', exportedAt, books}`. -/
def downloadBookshelf (books : List Book) (exportedAt : Int) : Json :=
  .obj [("version", .str "1.0"),
        ("exportedAt", .num exportedAt),
        ("books", .arr (books.map encodeBook))]

/-- The two import merge policies of `uploadBookshelf`. -/
inductive MergeMode where
  | replace
  | merge

/-- The `validBooks.map` of `uploadBookshelf` in merge mode: a book whose id
collides with an existing id receives a freshly generated one
(`Date.now().toString() + Math.random()...`, modelled by the oracle `fresh`
indexed by position), all other books are kept as they are. -/
def renameMerge (existingIds : List String) (fresh : Nat → String) :
    Nat → List Json → List Json
  | _, [] => []
  | k, b :: bs =>
    (if bookId b ∈ existingIds then setField b "id" (.str (fresh k)) else b) ::
      renameMerge existingIds fresh (k + 1) bs

/-- `uploadBookshelf` applied to the parsed document: requires a `books`
array, filters it through `validateBook`, throws when no candidate survives,
and either replaces the collection or merges (renaming id collisions). -/
def uploadBookshelf (doc : Json) (existing : List Json) (mode : MergeMode)
    (fresh : Nat → String) : Except String (List Json × Nat) :=
  match jget doc "books" with
  | some (.arr bs) =>
    let validBooks := bs.filter validateBook
    if validBooks.isEmpty then
      Except.error "有効な本のデータが見つかりませんでした"
    else
      match mode with
      | .replace => Except.ok (validBooks, validBooks.length)
      | .merge =>
        let mergedBooks := renameMerge (existing.map bookId) fresh 0 validBooks
        Except.ok (existing ++ mergedBooks, mergedBooks.length)
  | _ => Except.error "本棚データの形式が正しくありません"

/-- Candidate selection of `uploadSingleBook`: `data.book` when truthy, else
the first element of a non-empty `data.books` array, else nothing. -/
def selectCandidate (doc : Json) : Option Json :=
  if truthyField doc "book" then jget doc "book"
  else
    match jget doc "books" with
    | some (.arr (x :: _)) => some x
    | _ => none

/-- `uploadSingleBook` applied to the parsed document: select the candidate
(throwing `本のデータが見つかりませんでした` when there is none), validate it
(throwing `本のデータ形式が正しくありません` otherwise), rename its id on
collision with an existing id, and prepend it to the collection. -/
def uploadSingleBook (doc : Json) (existing : List Json) (fresh : String) :
    Except String (List Json × Json) :=
  match selectCandidate doc with
  | none => Except.error "本のデータが見つかりませんでした"
  | some b =>
    if validateBook b then
      let existingIds := existing.map bookId
      let importedBook :=
        if bookId b ∈ existingIds then setField b "id" (.str fresh) else b
      Except.ok (importedBook :: existing, importedBook)
    else Except.error "本のデータ形式が正しくありません"

/-!
## Persistence operations in `App.tsx` that add a book
-/

/-- The book record built by `handleSaveBook` (new-book branch),
`handleAIGenerateComplete` and `handleFinish`: id is the save timestamp as a
string, an empty title falls back to `無題の本` (JS `||`), and
`createdAt = updatedAt = now`. -/
def newBookFrom (now : Int) (title : String) (cover : CoverData)
    (pages : List StoryPage) : Book :=
  { id := toString now
    title := if title = "" then "無題の本" else title
    coverData := cover
    pages := pages
    createdAt := now
    updatedAt := now }

/-- The new-book branch of `handleSaveBook`: prepend the new book. -/
def handleSaveBookNew (books : List Book) (now : Int) (title : String)
    (cover : CoverData) (pages : List StoryPage) : List Book :=
  newBookFrom now title cover pages :: books

/-- `handleAIGenerateComplete`: auto-save the generated book by prepending
it. -/
def handleAIGenerateComplete (books : List Book) (now : Int)
    (generatedTitle : String) (generatedCover : CoverData)
    (generatedPages : List StoryPage) : List Book :=
  newBookFrom now generatedTitle generatedCover generatedPages :: books

/-- The spec's invariant on the typed collection: no two books share an id. -/
def uniqueIds (books : List Book) : Prop :=
  (books.map Book.id).Nodup

/-- The same invariant on a JSON-level collection. -/
def uniqueIdsJ (books : List Json) : Prop :=
  (books.map bookId).Nodup

/-!
## Concrete fixtures used by witnesses and counterexamples
-/

/-- An oracle on which every external call succeeds. -/
def svcAllOk : GenService where
  story := fun _ _ => .ok "むかしむかし"
  prompt := fun _ _ => .ok "a rabbit"
  image := fun _ => .ok "data:image/png;base64,AAA"

/-- A text-generation oracle that succeeds with the empty string: mirrors
the provider returning empty content, which `generateStoryText` does not
reject. -/
def svcEmptyText : GenService where
  story := fun _ _ => Except.ok ""
  prompt := fun _ _ => Except.ok "p"
  image := fun _ => Except.error "e"

/-- A concrete valid JSON-level book with id `y`. -/
def dupBook : Json :=
  Json.obj [("id", Json.str "y"), ("title", Json.str "t"),
    ("coverData", Json.obj []), ("pages", Json.arr []),
    ("createdAt", Json.num 0), ("updatedAt", Json.num 0)]

/-- A bookshelf export document containing the same valid book twice. -/
def dupDoc : Json := Json.obj [("books", Json.arr [dupBook, dupBook])]

/-- An injective stream of fresh ids for witnesses. -/
def freshId (j : Nat) : String := String.mk (List.replicate j 'z')

end BookGen

namespace BookGen

/-- If the text-generation call for page `j` fails (whatever context it is
given), the page loop that reaches page `j` aborts with an error. -/
lemma runPages_error_of_story_fails (svc : GenService) (descs : List String)
    (nowStr : String) (N : Nat) (j : Nat)
    (hfail : ∀ ctx, ∃ e, svc.story j ctx = Except.error e) :
    ∀ cnt i texts, i ≤ j → j < i + cnt →
      ∃ e, (runPages svc descs nowStr N i cnt texts).1 = Except.error e := by
  intro cnt
  induction cnt with
  | zero => intro i texts h1 h2; omega
  | succ n ih =>
    intro i texts h1 h2
    by_cases hij : i = j
    · subst hij
      obtain ⟨e, he⟩ := hfail texts
      exact ⟨e, by simp [runPages, he]⟩
    · have hlt : i + 1 ≤ j := by omega
      cases hstory : svc.story i texts with
      | error e => exact ⟨e, by simp [runPages, hstory]⟩
      | ok t =>
        cases hprompt : svc.prompt t descs with
        | error e => exact ⟨e, by simp [runPages, hstory, hprompt]⟩
        | ok pr =>
          obtain ⟨e, he⟩ := ih (i + 1) (texts ++ [t]) hlt (by omega)
          refine ⟨e, ?_⟩
          simp [runPages, hstory, hprompt, he, Except.map]

/-- Successful page loops produce exactly one page per requested page, in
order, and page `k` (zero-based) was generated by the text call for page
number `i + k` receiving exactly the previously accumulated texts. -/
lemma runPages_ok_spec (svc : GenService) (descs : List String)
    (nowStr : String) (N : Nat) :
    ∀ cnt i texts pages ps,
      runPages svc descs nowStr N i cnt texts = (Except.ok pages, ps) →
      pages.length = cnt ∧
      ∀ k, (hk : k < pages.length) →
        svc.story (i + k) (texts ++ (pages.map StoryPage.text).take k) =
          Except.ok ((pages.get ⟨k, hk⟩).text) := by
  intro cnt
  induction cnt with
  | zero =>
    intro i texts pages ps h
    simp [runPages] at h
    obtain ⟨h1, _⟩ := h
    subst h1
    simp
  | succ n ih =>
    intro i texts pages ps h
    cases hstory : svc.story i texts with
    | error e => simp [runPages, hstory] at h
    | ok t =>
      cases hprompt : svc.prompt t descs with
      | error e => simp [runPages, hstory, hprompt] at h
      | ok pr =>
        simp [runPages, hstory, hprompt] at h
        cases hrest : (runPages svc descs nowStr N (i + 1) n (texts ++ [t])).1 with
        | error e => rw [hrest] at h; simp [Except.map] at h
        | ok restPages =>
          rw [hrest] at h
          simp [Except.map] at h
          obtain ⟨hpages, _⟩ := h
          have hrest' : runPages svc descs nowStr N (i + 1) n (texts ++ [t]) =
              (Except.ok restPages,
                (runPages svc descs nowStr N (i + 1) n (texts ++ [t])).2) := by
            rw [← hrest]
          obtain ⟨hlen, hspec⟩ := ih (i + 1) (texts ++ [t]) restPages _ hrest'
          subst hpages
          constructor
          · simp [hlen]
          · intro k hk
            cases k with
            | zero => simp [hstory]
            | succ m =>
              have hm : m < restPages.length := by
                simpa using hk
              have := hspec m hm
              have harr : i + (m + 1) = i + 1 + m := by omega
              simpa [harr, List.take_succ_cons, List.append_assoc] using this

/-- When every text and prompt call succeeds and every image call fails, the
page loop succeeds and produces pages all lacking an image. -/
lemma runPages_all_images_fail (svc : GenService) (descs : List String)
    (nowStr : String) (N : Nat)
    (hstory : ∀ j ctx, ∃ s, svc.story j ctx = Except.ok s)
    (hprompt : ∀ t d, ∃ s, svc.prompt t d = Except.ok s)
    (himg : ∀ p, ∃ e, svc.image p = Except.error e) :
    ∀ cnt i texts, ∃ pages ps,
      runPages svc descs nowStr N i cnt texts = (Except.ok pages, ps) ∧
      pages.length = cnt ∧ ∀ pg ∈ pages, pg.image = none := by
  intro cnt
  induction cnt with
  | zero => intro i texts; exact ⟨[], [], by simp [runPages]⟩
  | succ n ih =>
    intro i texts
    obtain ⟨t, ht⟩ := hstory i texts
    obtain ⟨pr, hpr⟩ := hprompt t descs
    obtain ⟨e, he⟩ := himg pr
    obtain ⟨restPages, restPs, hrest, hlen, himgs⟩ := ih (i + 1) (texts ++ [t])
    have hrun : (runPages svc descs nowStr N i (n + 1) texts).1 =
        Except.ok
          (⟨nowStr ++ toString i, imageOrNull (svc.image pr), 1, t⟩ :: restPages) := by
      simp [runPages, ht, hpr, hrest, Except.map]
    refine ⟨⟨nowStr ++ toString i, imageOrNull (svc.image pr), 1, t⟩ :: restPages,
      (runPages svc descs nowStr N i (n + 1) texts).2, ?_, by simp [hlen], ?_⟩
    · rw [← hrun]
    · intro pg hpg
      rcases List.mem_cons.1 hpg with hpg | hpg
      · subst hpg
        simp [imageOrNull, he]
      · exact himgs pg hpg

/-- Every progress snapshot emitted by the page loop has total `N + 2` and a
`current` equal to a page number in `[i, i + cnt)`, and the emitted snapshots
are non-decreasing in `current`. -/
lemma runPages_progress_spec (svc : GenService) (descs : List String)
    (nowStr : String) (N : Nat) :
    ∀ cnt i texts,
      (∀ p ∈ (runPages svc descs nowStr N i cnt texts).2,
        p.total = N + 2 ∧ i ≤ p.current ∧ p.current < i + cnt) ∧
      List.Chain' (fun a b => a.current ≤ b.current)
        ((runPages svc descs nowStr N i cnt texts).2) := by
  intro cnt
  induction cnt with
  | zero => intro i texts; simp [runPages]
  | succ n ih =>
    intro i texts
    cases hstory : svc.story i texts with
    | error e =>
      constructor
      · intro p hp
        simp [runPages, hstory] at hp
        subst hp
        exact ⟨rfl, le_refl i, Nat.lt_add_of_pos_right (Nat.succ_pos n)⟩
      · simp [runPages, hstory]
    | ok t =>
      cases hprompt : svc.prompt t descs with
      | error e =>
        constructor
        · intro p hp
          simp [runPages, hstory, hprompt] at hp
          rcases hp with hp | hp <;>
            (subst hp;
             exact ⟨rfl, le_refl i, Nat.lt_add_of_pos_right (Nat.succ_pos n)⟩)
        · simp [runPages, hstory, hprompt, List.chain'_cons]
      | ok pr =>
        obtain ⟨ihmem, ihchain⟩ := ih (i + 1) (texts ++ [t])
        have hsnd : (runPages svc descs nowStr N i (n + 1) texts).2 =
            ⟨i, N + 2,
              "ページ " ++ toString i ++ "/" ++ toString N ++ " のストーリーを生成中..."⟩ ::
            ⟨i, N + 2,
              "ページ " ++ toString i ++ "/" ++ toString N ++ " のイラストを生成中..."⟩ ::
            (runPages svc descs nowStr N (i + 1) n (texts ++ [t])).2 := by
          simp [runPages, hstory, hprompt]
        rw [hsnd]
        constructor
        · intro p hp
          rcases List.mem_cons.1 hp with hp | hp
          · subst hp
            exact ⟨rfl, le_refl i, Nat.lt_add_of_pos_right (Nat.succ_pos n)⟩
          rcases List.mem_cons.1 hp with hp | hp
          · subst hp
            exact ⟨rfl, le_refl i, Nat.lt_add_of_pos_right (Nat.succ_pos n)⟩
          · obtain ⟨h1, h2, h3⟩ := ihmem p hp
            exact ⟨h1, by omega, by omega⟩
        · rw [List.chain'_cons]
          refine ⟨le_refl i, ?_⟩
          rw [List.chain'_cons']
          refine ⟨?_, ihchain⟩
          intro y hy
          have hmem : y ∈ (runPages svc descs nowStr N (i + 1) n (texts ++ [t])).2 :=
            List.mem_of_mem_head? hy
          obtain ⟨_, h2, _⟩ := ihmem y hmem
          exact le_trans (Nat.le_succ i) h2

/-- C1: if the text-generation operation fails on a page index `i`
(`1 ≤ i ≤ pageCount`) reached by the run, the whole run produces an error:
no `(title, cover, pages)` triple is produced, so the `onGenerate` completion
callback is never invoked and no partial page list escapes; the error message
is surfaced instead. -/
theorem textFailureAbortsRun (svc : GenService)
    (baseImages : List (Except String String)) (nowStr theme : String)
    (pageCount i : Nat) (h1 : 1 ≤ i) (h2 : i ≤ pageCount)
    (hfail : ∀ ctx, ∃ e, svc.story i ctx = Except.error e) :
    ∃ e, (handleGenerate svc baseImages nowStr theme pageCount).1 =
      Except.error e := by
  obtain ⟨e, he⟩ := runPages_error_of_story_fails svc
    (analyzeBaseImages baseImages) nowStr pageCount i hfail pageCount 1 [] h1
    (by omega)
  refine ⟨e, ?_⟩
  simp [handleGenerate, he]

/-- Closed witness for `textFailureAbortsRun`. -/
theorem textFailureAbortsRun_witness :
    ∃ e, (handleGenerate
      ⟨fun _ _ => Except.error "boom", fun _ _ => Except.ok "p",
        fun _ => Except.ok "img"⟩ [] "d" "t" 3).1 = Except.error e :=
  textFailureAbortsRun _ [] "d" "t" 3 2 (by decide) (by decide)
    (fun ctx => ⟨"boom", rfl⟩)

/-- C2: when every image-generation call fails but text and prompt generation
succeed, the run still completes: it produces exactly `pageCount` pages, each
with `image = null`, and a cover with `image = null`. -/
theorem allImageFailuresStillComplete (svc : GenService)
    (baseImages : List (Except String String)) (nowStr theme : String)
    (pageCount : Nat)
    (hstory : ∀ j ctx, ∃ s, svc.story j ctx = Except.ok s)
    (hprompt : ∀ t d, ∃ s, svc.prompt t d = Except.ok s)
    (himg : ∀ p, ∃ e, svc.image p = Except.error e) :
    ∃ title cover pages,
      (handleGenerate svc baseImages nowStr theme pageCount).1 =
        Except.ok (title, cover, pages) ∧
      pages.length = pageCount ∧ (∀ pg ∈ pages, pg.image = none) ∧
      cover.image = none := by
  obtain ⟨pages, ps, hrun, hlen, himgs⟩ :=
    runPages_all_images_fail svc (analyzeBaseImages baseImages) nowStr
      pageCount hstory hprompt himg pageCount 1 []
  have hcover :
      (match svc.prompt ("表紙: " ++ theme ++ "の物語")
          (analyzeBaseImages baseImages) with
        | .error _ => (none : Option String)
        | .ok cp => imageOrNull (svc.image cp)) = none := by
    obtain ⟨cp, hcp⟩ := hprompt ("表紙: " ++ theme ++ "の物語")
      (analyzeBaseImages baseImages)
    obtain ⟨e, he⟩ := himg cp
    simp [hcp, imageOrNull, he]
  refine ⟨theme, ⟨none, 1⟩, pages, ?_, hlen, himgs, rfl⟩
  simp [handleGenerate, hrun, hcover]

/-- Prepending a snapshot with `current = 0` keeps the trace monotone. -/
lemma chain'_le_cons_zero (q0 : Progress) (L : List Progress)
    (h : List.Chain' (fun a b : Progress => a.current ≤ b.current) L)
    (h0 : q0.current = 0) :
    List.Chain' (fun a b : Progress => a.current ≤ b.current) (q0 :: L) :=
  List.chain'_cons'.2 ⟨fun _ _ => by rw [h0]; exact Nat.zero_le _, h⟩

/-- Appending two final snapshots that dominate the trace keeps it
monotone. -/
lemma chain'_le_append_two (L : List Progress) (c1 c2 : Progress)
    (hL : List.Chain' (fun a b : Progress => a.current ≤ b.current) L)
    (hbound : ∀ x ∈ L, x.current ≤ c1.current)
    (h12 : c1.current ≤ c2.current) :
    List.Chain' (fun a b : Progress => a.current ≤ b.current)
      (L ++ [c1, c2]) := by
  refine List.Chain'.append hL
    (List.chain'_cons.2 ⟨h12, List.chain'_singleton c2⟩) ?_
  intro x hx y hy
  have hxL : x ∈ L := by
    rcases List.mem_getLast?_eq_getLast hx with ⟨hne, hxe⟩
    subst hxe
    exact List.getLast_mem hne
  have hyc : c1 = y := by simpa using hy
  subst hyc
  exact hbound x hxL

/-- Prepending snapshots with `current = 0` keeps the trace monotone. -/
lemma chain'_le_zeros_append (A L : List Progress)
    (hA : ∀ x ∈ A, x.current = 0)
    (hL : List.Chain' (fun a b : Progress => a.current ≤ b.current) L) :
    List.Chain' (fun a b : Progress => a.current ≤ b.current) (A ++ L) := by
  induction A with
  | nil => simpa using hL
  | cons a A ih =>
    rw [List.cons_append, List.chain'_cons']
    refine ⟨?_, ih fun x hx => hA x (List.mem_cons_of_mem a hx)⟩
    intro y _
    rw [hA a (List.mem_cons_self a A)]
    exact Nat.zero_le _

/-- C4: over any run, the delivered progress snapshots are monotonically
non-decreasing in `current`, `current` never exceeds `total`, and on a
successful run the final snapshot is `{current = total = pageCount + 2}`. -/
theorem progressSnapshots (svc : GenService)
    (baseImages : List (Except String String)) (nowStr theme : String)
    (pageCount : Nat) :
    List.Chain' (fun a b : Progress => a.current ≤ b.current)
      (handleGenerate svc baseImages nowStr theme pageCount).2 ∧
    (∀ p ∈ (handleGenerate svc baseImages nowStr theme pageCount).2,
      p.current ≤ p.total) ∧
    (∀ t c pages,
      (handleGenerate svc baseImages nowStr theme pageCount).1 =
        Except.ok (t, c, pages) →
      (handleGenerate svc baseImages nowStr theme pageCount).2.getLast? =
        some ⟨pageCount + 2, pageCount + 2, "完了!"⟩) := by
  obtain ⟨hPmem, hPchain⟩ := runPages_progress_spec svc
    (analyzeBaseImages baseImages) nowStr pageCount pageCount 1 []
  have hPcur : ∀ p ∈ (runPages svc (analyzeBaseImages baseImages) nowStr
      pageCount 1 pageCount []).2, p.current ≤ pageCount + 1 := by
    intro p hp
    have := (hPmem p hp).2.2
    omega
  have hPtot : ∀ p ∈ (runPages svc (analyzeBaseImages baseImages) nowStr
      pageCount 1 pageCount []).2, p.current ≤ p.total := by
    intro p hp
    obtain ⟨h1, _, h3⟩ := hPmem p hp
    omega
  have hA : ∀ x ∈ (if baseImages.isEmpty then ([] : List Progress)
      else [⟨0, pageCount + 2, "参考画像を分析中..."⟩]),
      x.current = 0 ∧ x.total = pageCount + 2 := by
    by_cases hbi : baseImages.isEmpty <;> simp [hbi]
  cases hr : (runPages svc (analyzeBaseImages baseImages) nowStr pageCount 1
      pageCount []).1 with
  | error e =>
    have hsnd : (handleGenerate svc baseImages nowStr theme pageCount).2 =
        ⟨0, pageCount + 2, "準備中..."⟩ ::
          ((if baseImages.isEmpty then ([] : List Progress)
            else [⟨0, pageCount + 2, "参考画像を分析中..."⟩]) ++
           (runPages svc (analyzeBaseImages baseImages) nowStr pageCount 1
            pageCount []).2) := by
      simp [handleGenerate, hr]
    refine ⟨?_, ?_, ?_⟩
    · rw [hsnd]
      exact chain'_le_cons_zero _ _
        (chain'_le_zeros_append _ _ (fun x hx => (hA x hx).1) hPchain) rfl
    · rw [hsnd]
      intro p hp
      rcases List.mem_cons.1 hp with hp | hp
      · subst hp; exact Nat.zero_le _
      rcases List.mem_append.1 hp with hp | hp
      · obtain ⟨h1, h2⟩ := hA p hp
        omega
      · exact hPtot p hp
    · intro t c pages hok
      simp [handleGenerate, hr] at hok
  | ok pages0 =>
    have hsnd : (handleGenerate svc baseImages nowStr theme pageCount).2 =
        ⟨0, pageCount + 2, "準備中..."⟩ ::
          ((if baseImages.isEmpty then ([] : List Progress)
            else [⟨0, pageCount + 2, "参考画像を分析中..."⟩]) ++
           ((runPages svc (analyzeBaseImages baseImages) nowStr pageCount 1
              pageCount []).2 ++
            [⟨pageCount + 1, pageCount + 2, "表紙を生成中..."⟩,
             ⟨pageCount + 2, pageCount + 2, "完了!"⟩])) := by
      simp [handleGenerate, hr]
    refine ⟨?_, ?_, ?_⟩
    · rw [hsnd]
      refine chain'_le_cons_zero _ _ ?_ rfl
      refine chain'_le_zeros_append _ _ (fun x hx => (hA x hx).1) ?_
      refine chain'_le_append_two _ _ _ hPchain hPcur ?_
      show pageCount + 1 ≤ pageCount + 2
      omega
    · rw [hsnd]
      intro p hp
      rcases List.mem_cons.1 hp with hp | hp
      · subst hp; exact Nat.zero_le _
      rcases List.mem_append.1 hp with hp | hp
      · obtain ⟨h1, h2⟩ := hA p hp
        omega
      rcases List.mem_append.1 hp with hp | hp
      · exact hPtot p hp
      rcases List.mem_cons.1 hp with hp | hp
      · subst hp; show pageCount + 1 ≤ pageCount + 2; omega
      · have : p = ⟨pageCount + 2, pageCount + 2, "完了!"⟩ := by simpa using hp
        subst this
        exact le_refl _
    · intro t c pages _
      rw [hsnd]
      rw [show (⟨0, pageCount + 2, "準備中..."⟩ : Progress) ::
          ((if baseImages.isEmpty then ([] : List Progress)
            else [⟨0, pageCount + 2, "参考画像を分析中..."⟩]) ++
           ((runPages svc (analyzeBaseImages baseImages) nowStr pageCount 1
              pageCount []).2 ++
            [⟨pageCount + 1, pageCount + 2, "表紙を生成中..."⟩,
             ⟨pageCount + 2, pageCount + 2, "完了!"⟩])) =
          (⟨0, pageCount + 2, "準備中..."⟩ ::
            ((if baseImages.isEmpty then ([] : List Progress)
              else [⟨0, pageCount + 2, "参考画像を分析中..."⟩]) ++
             (runPages svc (analyzeBaseImages baseImages) nowStr pageCount 1
              pageCount []).2)) ++
            (⟨pageCount + 1, pageCount + 2, "表紙を生成中..."⟩ ::
              [⟨pageCount + 2, pageCount + 2, "完了!"⟩]) by simp]
      rw [List.getLast?_append_cons]
      rfl

/-- Closed witness for `progressSnapshots` (instantiating its success
implication at a run of two pages). -/
theorem progressSnapshots_witness :
    (handleGenerate svcAllOk [] "d" "t" 2).2.getLast? =
      some ⟨4, 4, "完了!"⟩ :=
  (progressSnapshots svcAllOk [] "d" "t" 2).2.2
    "t" ⟨some "data:image/png;base64,AAA", 1⟩
    [⟨"d1", some "data:image/png;base64,AAA", 1, "むかしむかし"⟩,
     ⟨"d2", some "data:image/png;base64,AAA", 1, "むかしむかし"⟩] rfl

/-- Closed witness for `allImageFailuresStillComplete`. -/
theorem allImageFailuresStillComplete_witness :
    ∃ title cover pages,
      (handleGenerate
        ⟨fun _ _ => Except.ok "text", fun _ _ => Except.ok "p",
          fun _ => Except.error "imgfail"⟩ [] "d" "t" 2).1 =
        Except.ok (title, cover, pages) ∧
      pages.length = 2 ∧ (∀ pg ∈ pages, pg.image = none) ∧
      cover.image = none :=
  allImageFailuresStillComplete _ [] "d" "t" 2
    (fun _ _ => ⟨"text", rfl⟩) (fun _ _ => ⟨"p", rfl⟩)
    (fun _ => ⟨"imgfail", rfl⟩)

/-- C3 counterexample: a run in which the text-generation operation returns
an empty string completes successfully with a page whose text is empty — the
code never rejects empty text, so "each page's text is a non-empty string"
fails. -/
theorem successfulRunPages_counterexample :
    (handleGenerate svcEmptyText [] "d" "t" 1).1 =
      Except.ok ("t", ⟨none, 1⟩, [⟨"d1", none, 1, ""⟩]) ∧
    ¬ (∀ pg ∈ [(⟨"d1", none, 1, ""⟩ : StoryPage)], pg.text ≠ "") := by
  refine ⟨rfl, fun h => ?_⟩
  exact h _ (List.mem_singleton_self _) rfl

/-- C3 (amended): a successful run with `pageCount = N` yields exactly `N`
pages in creation order; page `k` (zero-based) carries exactly the text
produced by the text-generation call for page number `k + 1`, and that call
received exactly the texts of the preceding pages as context.  Texts are
non-empty whenever the text-generation operation never returns an empty
string (the code itself does not enforce non-emptiness). -/
theorem successfulRunPages (svc : GenService)
    (baseImages : List (Except String String)) (nowStr theme : String)
    (pageCount : Nat) (t : String) (c : CoverData) (pages : List StoryPage)
    (hok : (handleGenerate svc baseImages nowStr theme pageCount).1 =
      Except.ok (t, c, pages)) :
    pages.length = pageCount ∧
    (∀ k, (hk : k < pages.length) →
      svc.story (k + 1) ((pages.map StoryPage.text).take k) =
        Except.ok ((pages.get ⟨k, hk⟩).text)) ∧
    ((∀ j ctx s, svc.story j ctx = Except.ok s → s ≠ "") →
      ∀ pg ∈ pages, pg.text ≠ "") := by
  cases hr : (runPages svc (analyzeBaseImages baseImages) nowStr pageCount 1
      pageCount []).1 with
  | error e => simp [handleGenerate, hr] at hok
  | ok pages0 =>
    have hpages : pages0 = pages := by
      simp [handleGenerate, hr] at hok
      exact hok.2.2
    subst hpages
    have hrun : runPages svc (analyzeBaseImages baseImages) nowStr pageCount
        1 pageCount [] =
        (Except.ok pages0,
          (runPages svc (analyzeBaseImages baseImages) nowStr pageCount 1
            pageCount []).2) := by
      rw [← hr]
    obtain ⟨hlen, hspec⟩ := runPages_ok_spec svc (analyzeBaseImages baseImages)
      nowStr pageCount pageCount 1 [] pages0 _ hrun
    refine ⟨hlen, ?_, ?_⟩
    · intro k hk
      have := hspec k hk
      simpa [Nat.add_comm] using this
    · intro hne pg hpg
      obtain ⟨⟨k, hk⟩, hget⟩ := List.mem_iff_get.1 hpg
      subst hget
      have hsk : svc.story (1 + k) ((pages0.map StoryPage.text).take k) =
          Except.ok ((pages0.get ⟨k, hk⟩).text) := by
        simpa using hspec k hk
      exact hne (1 + k) ((pages0.map StoryPage.text).take k) _ hsk

/-- Closed witness for `successfulRunPages`. -/
theorem successfulRunPages_witness :
    [⟨"d1", some "data:image/png;base64,AAA", 1, "むかしむかし"⟩,
      (⟨"d2", some "data:image/png;base64,AAA", 1, "むかしむかし"⟩ : StoryPage)].length
        = 2 :=
  (successfulRunPages svcAllOk [] "d" "t" 2 "t"
    ⟨some "data:image/png;base64,AAA", 1⟩
    [⟨"d1", some "data:image/png;base64,AAA", 1, "むかしむかし"⟩,
     ⟨"d2", some "data:image/png;base64,AAA", 1, "むかしむかし"⟩] rfl).1

/-- C5 counterexample: on a response carrying no inline image data,
`generateImage` raises the error `画像データが見つかりません`; it does not
return a null value to its caller (its only non-raising outcomes carry an
encoded image). -/
theorem generateImageRaises_counterexample :
    generateImage ⟨[]⟩ = Except.error "画像データが見つかりません" ∧
    (generateImage ⟨[]⟩).isOk = false := ⟨rfl, rfl⟩

/-- C5 (amended): `generateImage` either succeeds with a `data:` URL (mime
type + base64 payload) or raises an error; `null` only appears in its
callers, which catch the raised error and substitute `null`
(`imageOrNull`). -/
theorem generateImageResultShape (resp : GenResponse) :
    (∃ mime payload, generateImage resp =
      Except.ok ("data:" ++ mime ++ ";base64," ++ payload)) ∨
    (generateImage resp = Except.error "画像データが見つかりません" ∧
      imageOrNull (generateImage resp) = none) := by
  have hfind : ∀ parts : List GenPart,
      (∃ mime payload, findInlineImage parts =
        Except.ok ("data:" ++ mime ++ ";base64," ++ payload)) ∨
      findInlineImage parts = Except.error "画像データが見つかりません" := by
    intro parts
    induction parts with
    | nil => exact Or.inr rfl
    | cons p rest ih =>
      cases hd : p.inlineData with
      | none => simpa [findInlineImage, hd] using ih
      | some d =>
        refine Or.inl ⟨?_, d.data, ?_⟩
        · exact match d.mimeType with
            | some s => if s = "" then "image/png" else s
            | none => "image/png"
        · simp [findInlineImage, hd]
  cases hc : resp.candidates.head? with
  | none => exact Or.inr ⟨by simp [generateImage, hc], by simp [generateImage, hc, imageOrNull]⟩
  | some cand =>
    cases hp : cand.parts with
    | none => exact Or.inr ⟨by simp [generateImage, hc, hp], by simp [generateImage, hc, hp, imageOrNull]⟩
    | some parts =>
      have hg : generateImage resp = findInlineImage parts := by
        simp [generateImage, hc, hp]
      rcases hfind parts with ⟨m, d, hmd⟩ | herr
      · exact Or.inl ⟨m, d, by rw [hg, hmd]⟩
      · exact Or.inr ⟨by rw [hg, herr], by rw [hg, herr]; rfl⟩

/-- Replacing a field and then reading it back yields the new value. -/
lemma lookupField_replaceField (fs : List (String × Json)) (key : String)
    (v : Json) : lookupField (replaceField fs key v) key = some v := by
  induction fs with
  | nil => simp [replaceField, lookupField]
  | cons f fs ih =>
    obtain ⟨k, v0⟩ := f
    by_cases hk : k = key
    · simp [replaceField, lookupField, hk]
    · simp [replaceField, lookupField, hk, ih]

/-- A candidate accepted by `validateBook` is an object. -/
lemma validateBook_isObj (b : Json) (h : validateBook b = true) :
    ∃ fs, b = Json.obj fs := by
  cases b with
  | obj fs => exact ⟨fs, rfl⟩
  | null => simp [validateBook] at h
  | bool x => simp [validateBook] at h
  | num x => simp [validateBook] at h
  | str x => simp [validateBook] at h
  | arr x => simp [validateBook] at h

/-- Renaming a validated book's id really changes its `id` field. -/
lemma bookId_setField_id (b : Json) (h : validateBook b = true) (s : String) :
    bookId (setField b "id" (Json.str s)) = s := by
  obtain ⟨fs, hb⟩ := validateBook_isObj b h
  subst hb
  simp [setField, bookId, jget, lookupField_replaceField]

/-- `renameMerge` keeps one output book per input book. -/
lemma renameMerge_length (E : List String) (fresh : Nat → String) :
    ∀ k bs, (renameMerge E fresh k bs).length = bs.length := by
  intro k bs
  induction bs generalizing k with
  | nil => simp [renameMerge]
  | cons b bs ih => simp [renameMerge, ih]

/-- The serialization of a typed book passes `validateBook`. -/
lemma validateBook_encodeBook (b : Book) :
    validateBook (encodeBook b) = true := by
  simp [validateBook, encodeBook, jget, lookupField]

/-- The id of a serialized book is the book's id. -/
lemma bookId_encodeBook (b : Book) : bookId (encodeBook b) = b.id := by
  simp [bookId, encodeBook, jget, lookupField]

/-- C6: exporting a single book and re-importing the document into an empty
collection succeeds and yields exactly that one book, field for field — id
included (no collision is possible in an empty collection, so no renaming
happens). -/
theorem singleBookRoundTrip (b : Book) (exportedAt : Int) (fresh : String) :
    uploadSingleBook (downloadSingleBook b exportedAt) [] fresh =
      Except.ok ([encodeBook b], encodeBook b) ∧
    bookId (encodeBook b) = b.id := by
  refine ⟨?_, bookId_encodeBook b⟩
  have hsel : selectCandidate (downloadSingleBook b exportedAt) =
      some (encodeBook b) := by
    simp [selectCandidate, truthyField, downloadSingleBook, jget,
      lookupField, truthy, encodeBook]
  simp [uploadSingleBook, hsel, validateBook_encodeBook]

/-- C7: merging a bookshelf export holding one valid book whose id `x`
collides with an existing book's id grows the collection by exactly that one
book, leaves the existing books untouched, and gives the imported book the
freshly generated id (distinct from `x` whenever the fresh id is); a merged
book whose id does not collide keeps its id unchanged. -/
theorem mergeRenamesCollidingId (doc : Json) (existing : List Json)
    (fresh : Nat → String) (b : Json) (x : String)
    (hdoc : jget doc "books" = some (Json.arr [b]))
    (hvalid : validateBook b = true)
    (hid : bookId b = x)
    (hex : x ∈ existing.map bookId)
    (hfresh : fresh 0 ≠ x) :
    uploadBookshelf doc existing MergeMode.merge fresh =
      Except.ok (existing ++ [setField b "id" (Json.str (fresh 0))], 1) ∧
    bookId (setField b "id" (Json.str (fresh 0))) = fresh 0 ∧
    bookId (setField b "id" (Json.str (fresh 0))) ≠ x ∧
    (∀ doc2 b2, jget doc2 "books" = some (Json.arr [b2]) →
      validateBook b2 = true → bookId b2 ∉ existing.map bookId →
      uploadBookshelf doc2 existing MergeMode.merge fresh =
        Except.ok (existing ++ [b2], 1)) := by
  have hren := bookId_setField_id b hvalid (fresh 0)
  refine ⟨?_, hren, by rw [hren]; exact hfresh, ?_⟩
  · have hcol : bookId b ∈ existing.map bookId := by rw [hid]; exact hex
    simp [uploadBookshelf, hdoc, hvalid, renameMerge, hcol]
  · intro doc2 b2 hdoc2 hvalid2 hnc
    simp [uploadBookshelf, hdoc2, hvalid2, renameMerge, hnc]

/-- Closed witness for `mergeRenamesCollidingId`. -/
theorem mergeRenamesCollidingId_witness :
    uploadBookshelf (Json.obj [("books", Json.arr [dupBook])]) [dupBook]
      MergeMode.merge (fun _ => "fresh") =
      Except.ok ([dupBook] ++ [setField dupBook "id" (Json.str "fresh")], 1) :=
  (mergeRenamesCollidingId (Json.obj [("books", Json.arr [dupBook])])
    [dupBook] (fun _ => "fresh") dupBook "y" rfl rfl rfl
    (by simp [dupBook, bookId, jget, lookupField]) (by decide)).1

/-- C9 counterexample: a bookshelf document whose only candidate fails
validation makes the whole import fail — the invalid candidate is not
silently discarded in that case. -/
theorem invalidCandidates_counterexample :
    uploadBookshelf (Json.obj [("books", Json.arr [Json.null])]) []
      MergeMode.replace (fun _ => "z") =
      Except.error "有効な本のデータが見つかりませんでした" := rfl

/-- C9 (amended): candidates failing validation are silently discarded and
exactly the valid candidates are imported — provided at least one candidate
validates; when none does, the bookshelf import fails with an error.  In a
single-book import an invalid candidate is rejected with an error. -/
theorem importValidation (doc : Json) (existing : List Json)
    (fresh : Nat → String) (bs : List Json)
    (hdoc : jget doc "books" = some (Json.arr bs)) :
    (bs.filter validateBook ≠ [] →
      uploadBookshelf doc existing MergeMode.replace fresh =
        Except.ok (bs.filter validateBook, (bs.filter validateBook).length) ∧
      uploadBookshelf doc existing MergeMode.merge fresh =
        Except.ok
          (existing ++
            renameMerge (existing.map bookId) fresh 0 (bs.filter validateBook),
           (bs.filter validateBook).length)) ∧
    (bs.filter validateBook = [] → ∀ mode,
      uploadBookshelf doc existing mode fresh =
        Except.error "有効な本のデータが見つかりませんでした") ∧
    (∀ doc2 existing2 fresh2 c, selectCandidate doc2 = some c →
      validateBook c = false →
      uploadSingleBook doc2 existing2 fresh2 =
        Except.error "本のデータ形式が正しくありません") := by
  refine ⟨?_, ?_, ?_⟩
  · intro hne
    have hne' : (bs.filter validateBook).isEmpty = false := by
      simpa [List.isEmpty_iff] using hne
    constructor
    · simp [uploadBookshelf, hdoc, hne']
    · simp [uploadBookshelf, hdoc, hne',
        renameMerge_length (existing.map bookId) fresh 0]
  · intro hnil mode
    have hnil' : (bs.filter validateBook).isEmpty = true := by
      simp [List.isEmpty_iff, hnil]
    simp [uploadBookshelf, hdoc, hnil']
  · intro doc2 existing2 fresh2 c hsel hinv
    simp [uploadSingleBook, hsel, hinv]

/-- Closed witness for `importValidation`: a document holding one valid and
one invalid candidate imports exactly the valid one. -/
theorem importValidation_witness :
    uploadBookshelf (Json.obj [("books", Json.arr [Json.null, dupBook])]) []
      MergeMode.replace (fun _ => "z") = Except.ok ([dupBook], 1) := by
  have h := ((importValidation
    (Json.obj [("books", Json.arr [Json.null, dupBook])]) []
    (fun _ => "z") [Json.null, dupBook] rfl).1
    (by rw [show List.filter validateBook [Json.null, dupBook] = [dupBook]
          from rfl]
        exact List.cons_ne_nil _ _)).1
  simpa using h

/-- C10 counterexample: a document with a present but falsy `book` field
(here the number `0`) and no `books` array makes the single-book import fail
with the data-not-found error even though a `book` field is present — the
code branches on JS truthiness, not on field presence. -/
theorem selectByTruthiness_counterexample :
    jget (Json.obj [("book", Json.num 0)]) "book" = some (Json.num 0) ∧
    uploadSingleBook (Json.obj [("book", Json.num 0)]) [] "z" =
      Except.error "本のデータが見つかりませんでした" := ⟨rfl, rfl⟩

/-- C10 (amended): when the document's `book` field is absent (more
generally, not truthy) and a non-empty `books` array is present, the first
element of that array is the candidate and is imported subject to
validation and id-collision renaming; the data-not-found error occurs
exactly when the `book` field is absent or falsy and no non-empty `books`
array is present. -/
theorem singleImportFallback (doc : Json) (existing : List Json)
    (fresh : String) :
    (∀ c cs, truthyField doc "book" = false →
      jget doc "books" = some (Json.arr (c :: cs)) →
      selectCandidate doc = some c ∧
      (validateBook c = true →
        uploadSingleBook doc existing fresh =
          Except.ok
            ((if bookId c ∈ existing.map bookId
              then setField c "id" (Json.str fresh) else c) :: existing,
             if bookId c ∈ existing.map bookId
              then setField c "id" (Json.str fresh) else c))) ∧
    (uploadSingleBook doc existing fresh =
        Except.error "本のデータが見つかりませんでした" ↔
      selectCandidate doc = none) ∧
    (selectCandidate doc = none ↔
      (truthyField doc "book" = false ∧
        ∀ c cs, jget doc "books" ≠ some (Json.arr (c :: cs)))) := by
  refine ⟨?_, ?_, ?_⟩
  · intro c cs hbook hbooks
    have hsel : selectCandidate doc = some c := by
      rw [selectCandidate, if_neg (by simp [hbook]), hbooks]
    refine ⟨hsel, fun hvalid => ?_⟩
    simp [uploadSingleBook, hsel, hvalid]
  · constructor
    · intro h
      cases hsel : selectCandidate doc with
      | none => rfl
      | some c =>
        rw [uploadSingleBook, hsel] at h
        by_cases hv : validateBook c <;> simp [hv] at h
    · intro h
      simp [uploadSingleBook, h]
  · constructor
    · intro h
      by_cases hb : truthyField doc "book"
      · rw [selectCandidate, if_pos hb] at h
        rw [truthyField] at hb
        cases hj : jget doc "book" with
        | none => rw [hj] at hb; simp at hb
        | some v => rw [hj] at h; simp at h
      · refine ⟨by simpa using hb, ?_⟩
        intro c cs hcs
        rw [selectCandidate, if_neg hb, hcs] at h
        simp at h
    · intro ⟨hb, hbooks⟩
      rw [selectCandidate, if_neg (by simp [hb])]
      cases hj : jget doc "books" with
      | none => rfl
      | some v =>
        cases v with
        | arr elems =>
          cases elems with
          | nil => rfl
          | cons c cs => exact absurd hj (hbooks c cs)
        | null => rfl
        | bool x => rfl
        | num x => rfl
        | str x => rfl
        | obj x => rfl

/-- Closed witness for `singleImportFallback`: importing a bookshelf
document through the single-book import takes the first book of the
array. -/
theorem singleImportFallback_witness :
    uploadSingleBook (Json.obj [("books", Json.arr [dupBook])]) [] "z" =
      Except.ok ([dupBook], dupBook) := by
  have h := ((singleImportFallback (Json.obj [("books", Json.arr [dupBook])])
    [] "z").1 dupBook [] rfl rfl).2 rfl
  simpa [dupBook, bookId, jget, lookupField] using h

/-- The ids produced by `renameMerge` are pairwise distinct and each is
either a kept non-colliding id of the input or one of the fresh ids, under
the side conditions that the input ids are distinct, the fresh ids are
injective and avoid both the collision set and the input ids. -/
lemma renameMerge_ids_nodup (E : List String) (fresh : Nat → String)
    (hinj : ∀ j k, fresh j = fresh k → j = k)
    (hfE : ∀ j, fresh j ∉ E) :
    ∀ bs k, (∀ b ∈ bs, validateBook b = true) →
      (bs.map bookId).Nodup →
      (∀ j, fresh j ∉ bs.map bookId) →
      ((renameMerge E fresh k bs).map bookId).Nodup ∧
      ∀ s ∈ (renameMerge E fresh k bs).map bookId,
        (s ∈ bs.map bookId ∧ s ∉ E) ∨ ∃ j, k ≤ j ∧ s = fresh j := by
  intro bs
  induction bs with
  | nil => intro k _ _ _; simp [renameMerge]
  | cons b bs ih =>
    intro k hval hnd hfbs
    rw [List.map_cons] at hnd
    obtain ⟨hbfst, hndtl⟩ := List.nodup_cons.1 hnd
    have hvb : validateBook b = true := hval b (List.mem_cons_self b bs)
    obtain ⟨ihnd, ihmem⟩ := ih (k + 1)
      (fun b2 hb2 => hval b2 (List.mem_cons_of_mem b hb2))
      hndtl
      (fun j hj => hfbs j (by rw [List.map_cons]; exact List.mem_cons_of_mem _ hj))
    have hids : (renameMerge E fresh k (b :: bs)).map bookId =
        bookId (if bookId b ∈ E then setField b "id" (Json.str (fresh k))
          else b) :: (renameMerge E fresh (k + 1) bs).map bookId := by
      simp [renameMerge]
    rw [hids]
    by_cases hcol : bookId b ∈ E
    · rw [if_pos hcol, bookId_setField_id b hvb]
      constructor
      · rw [List.nodup_cons]
        refine ⟨?_, ihnd⟩
        intro hmem
        rcases ihmem _ hmem with ⟨hin, _⟩ | ⟨j, hkj, hje⟩
        · exact hfbs k (by simp [List.mem_cons]; right; simpa using hin)
        · have := hinj k j hje
          omega
      · intro s hs
        rcases List.mem_cons.1 hs with hs | hs
        · exact Or.inr ⟨k, le_refl k, hs⟩
        · rcases ihmem s hs with ⟨hin, hout⟩ | ⟨j, hkj, hje⟩
          · exact Or.inl ⟨by simp [List.mem_cons]; right; simpa using hin, hout⟩
          · exact Or.inr ⟨j, by omega, hje⟩
    · rw [if_neg hcol]
      constructor
      · rw [List.nodup_cons]
        refine ⟨?_, ihnd⟩
        intro hmem
        rcases ihmem _ hmem with ⟨hin, _⟩ | ⟨j, _, hje⟩
        · exact hbfst (by simpa using hin)
        · exact hfbs j (by simp [List.mem_cons]; left; exact hje.symm)
      · intro s hs
        rcases List.mem_cons.1 hs with hs | hs
        · subst hs
          exact Or.inl ⟨by simp [List.mem_cons], hcol⟩
        · rcases ihmem s hs with ⟨hin, hout⟩ | ⟨j, hkj, hje⟩
          · exact Or.inl ⟨by simp [List.mem_cons]; right; simpa using hin, hout⟩
          · exact Or.inr ⟨j, by omega, hje⟩

/-- C8 counterexample: merging a bookshelf file that contains the same valid
book twice into an empty (hence duplicate-free) collection produces a
collection in which two books share the id `y` — importing does not preserve
id-uniqueness unconditionally. -/
theorem uniqueIdsPreserved_counterexample :
    uploadBookshelf dupDoc [] MergeMode.merge (fun _ => "z") =
      Except.ok ([dupBook, dupBook], 2) ∧
    ¬ uniqueIdsJ [dupBook, dupBook] := by
  refine ⟨rfl, ?_⟩
  intro h
  rw [uniqueIdsJ,
    show [dupBook, dupBook].map bookId = ["y", "y"] from rfl] at h
  simp at h

/-- C8 (amended): every operation that adds a book preserves id-uniqueness
under the natural freshness side conditions: a newly saved or AI-generated
book's timestamp id must not already occur; a replace-import requires that
the valid books of the file carry pairwise-distinct ids; a merge-import
additionally requires the fresh ids to be injective and to avoid both the
existing ids and those of the file's valid books; a single-book import
requires the fresh id to avoid the existing ids.  (Without them uniqueness
can be violated, see the counterexample.) -/
theorem uniqueIdsPreserved :
    (∀ (books : List Book) (now : Int) (t : String) (c : CoverData)
        (ps : List StoryPage), uniqueIds books →
      toString now ∉ books.map Book.id →
      uniqueIds (handleSaveBookNew books now t c ps)) ∧
    (∀ (books : List Book) (now : Int) (t : String) (c : CoverData)
        (ps : List StoryPage), uniqueIds books →
      toString now ∉ books.map Book.id →
      uniqueIds (handleAIGenerateComplete books now t c ps)) ∧
    (∀ (doc : Json) (existing : List Json) (fresh : Nat → String)
        (bs l : List Json) (n : Nat),
      jget doc "books" = some (Json.arr bs) →
      ((bs.filter validateBook).map bookId).Nodup →
      uploadBookshelf doc existing MergeMode.replace fresh =
        Except.ok (l, n) →
      uniqueIdsJ l) ∧
    (∀ (doc : Json) (existing : List Json) (fresh : Nat → String)
        (bs l : List Json) (n : Nat),
      jget doc "books" = some (Json.arr bs) →
      uniqueIdsJ existing →
      ((bs.filter validateBook).map bookId).Nodup →
      (∀ j, fresh j ∉ existing.map bookId) →
      (∀ j, fresh j ∉ (bs.filter validateBook).map bookId) →
      (∀ j k, fresh j = fresh k → j = k) →
      uploadBookshelf doc existing MergeMode.merge fresh =
        Except.ok (l, n) →
      uniqueIdsJ l) ∧
    (∀ (doc : Json) (existing : List Json) (fresh : String) (l : List Json)
        (b : Json),
      uniqueIdsJ existing →
      fresh ∉ existing.map bookId →
      uploadSingleBook doc existing fresh = Except.ok (l, b) →
      uniqueIdsJ l) := by
  refine ⟨?_, ?_, ?_, ?_, ?_⟩
  · intro books now t c ps hnd hnew
    exact List.nodup_cons.2 ⟨hnew, hnd⟩
  · intro books now t c ps hnd hnew
    exact List.nodup_cons.2 ⟨hnew, hnd⟩
  · intro doc existing fresh bs l n hdoc hnd hok
    cases hne : (bs.filter validateBook).isEmpty with
    | true =>
      have herr : uploadBookshelf doc existing MergeMode.replace fresh =
          Except.error "有効な本のデータが見つかりませんでした" := by
        simp [uploadBookshelf, hdoc, hne]
      rw [herr] at hok
      exact absurd hok (by simp)
    | false =>
      have heq : uploadBookshelf doc existing MergeMode.replace fresh =
          Except.ok (bs.filter validateBook,
            (bs.filter validateBook).length) := by
        simp [uploadBookshelf, hdoc, hne]
      rw [heq] at hok
      simp only [Except.ok.injEq, Prod.mk.injEq] at hok
      rw [uniqueIdsJ, ← hok.1]
      exact hnd
  · intro doc existing fresh bs l n hdoc hndE hndV hfE hfV hinj hok
    cases hne : (bs.filter validateBook).isEmpty with
    | true =>
      have herr : uploadBookshelf doc existing MergeMode.merge fresh =
          Except.error "有効な本のデータが見つかりませんでした" := by
        simp [uploadBookshelf, hdoc, hne]
      rw [herr] at hok
      exact absurd hok (by simp)
    | false =>
      have heq : uploadBookshelf doc existing MergeMode.merge fresh =
          Except.ok (existing ++
            renameMerge (existing.map bookId) fresh 0 (bs.filter validateBook),
            (renameMerge (existing.map bookId) fresh 0
              (bs.filter validateBook)).length) := by
        simp [uploadBookshelf, hdoc, hne]
      rw [heq] at hok
      simp only [Except.ok.injEq, Prod.mk.injEq] at hok
      obtain ⟨hmnd, hmmem⟩ := renameMerge_ids_nodup (existing.map bookId)
        fresh hinj hfE (bs.filter validateBook) 0
        (fun b hb => List.of_mem_filter hb) hndV hfV
      rw [uniqueIdsJ, ← hok.1, List.map_append, List.nodup_append]
      refine ⟨hndE, hmnd, ?_⟩
      intro s hsE hsM
      rcases hmmem s hsM with ⟨_, hout⟩ | ⟨j, _, hje⟩
      · exact hout hsE
      · subst hje
        exact hfE j hsE
  · intro doc existing fresh l b hndE hfE hok
    cases hsel : selectCandidate doc with
    | none =>
      have herr : uploadSingleBook doc existing fresh =
          Except.error "本のデータが見つかりませんでした" := by
        simp [uploadSingleBook, hsel]
      rw [herr] at hok
      exact absurd hok (by simp)
    | some cand =>
      cases hv : validateBook cand with
      | false =>
        have herr : uploadSingleBook doc existing fresh =
            Except.error "本のデータ形式が正しくありません" := by
          simp [uploadSingleBook, hsel, hv]
        rw [herr] at hok
        exact absurd hok (by simp)
      | true =>
        have heq : uploadSingleBook doc existing fresh =
            Except.ok ((if bookId cand ∈ existing.map bookId
              then setField cand "id" (Json.str fresh) else cand) :: existing,
              if bookId cand ∈ existing.map bookId
              then setField cand "id" (Json.str fresh) else cand) := by
          simp [uploadSingleBook, hsel, hv]
        rw [heq] at hok
        simp only [Except.ok.injEq, Prod.mk.injEq] at hok
        rw [uniqueIdsJ, ← hok.1]
        rw [List.map_cons, List.nodup_cons]
        by_cases hcol : bookId cand ∈ existing.map bookId
        · rw [if_pos hcol, bookId_setField_id cand hv]
          exact ⟨hfE, hndE⟩
        · rw [if_neg hcol]
          exact ⟨hcol, hndE⟩

/-- The fresh-id stream is injective. -/
lemma freshId_inj (j k : Nat) (h : freshId j = freshId k) : j = k := by
  have := congrArg (fun s => s.data.length) h
  simpa [freshId] using this

/-- The fresh-id stream avoids the id `y`. -/
lemma freshId_ne_y (j : Nat) : freshId j ≠ "y" := by
  intro h
  have hd : List.replicate j 'z' = ['y'] := congrArg String.data h
  cases j with
  | zero => simp at hd
  | succ m =>
    rw [List.replicate] at hd
    simp at hd

/-- Closed witness for `uniqueIdsPreserved`, instantiating each conjunct at
a concrete input. -/
theorem uniqueIdsPreserved_witness :
    uniqueIds (handleSaveBookNew [] 5 "t" ⟨none, 1⟩ []) ∧
    uniqueIds (handleAIGenerateComplete [] 6 "t" ⟨none, 1⟩ []) ∧
    uniqueIdsJ [dupBook] ∧
    uniqueIdsJ ([dupBook] ++ renameMerge ["y"] freshId 0 [dupBook]) ∧
    uniqueIdsJ [dupBook] := by
  obtain ⟨h1, h2, h3, h4, h5⟩ := uniqueIdsPreserved
  refine ⟨h1 [] 5 "t" ⟨none, 1⟩ [] (by simp [uniqueIds]) (by simp),
    h2 [] 6 "t" ⟨none, 1⟩ [] (by simp [uniqueIds]) (by simp), ?_, ?_, ?_⟩
  · exact h3 (Json.obj [("books", Json.arr [dupBook])]) [] (fun _ => "z")
      [dupBook] [dupBook] 1 rfl
      (by rw [show ([dupBook].filter validateBook).map bookId = ["y"]
            from rfl]
          simp) rfl
  · exact h4 (Json.obj [("books", Json.arr [dupBook])]) [dupBook]
      freshId [dupBook]
      ([dupBook] ++ renameMerge ["y"] freshId 0 [dupBook]) 1 rfl
      (by rw [uniqueIdsJ, show [dupBook].map bookId = ["y"] from rfl]; simp)
      (by rw [show ([dupBook].filter validateBook).map bookId = ["y"]
            from rfl]
          simp)
      (by intro j
          rw [show [dupBook].map bookId = ["y"] from rfl]
          simpa using freshId_ne_y j)
      (by intro j
          rw [show ([dupBook].filter validateBook).map bookId = ["y"]
            from rfl]
          simpa using freshId_ne_y j)
      freshId_inj rfl
  · exact h5 (Json.obj [("book", dupBook)]) [] "z" [dupBook] dupBook
      (by rw [uniqueIdsJ]; simp) (by simp) rfl

end BookGen
